import Mathlib

/-!
Shallow embedding of the rusp reader (src/main.rs), a recursive-descent
reader for nested list expressions: symbols, quoted strings, non-negative
integers and parenthesized lists.

Modelling conventions:
* Rust `String` text is a `List Char` (a sequence of Unicode codepoints);
  Rust `text.len()` is the UTF-8 byte length, modelled by `byteLen`.
* Every `panic!` / `expect` in the source becomes an `Except.error` value
  carrying the corresponding error kind (`ParseError`).
* The reading loops and the mutual recursion of the dispatcher are fueled:
  each function consumes one unit of fuel per call or loop iteration and
  returns `none` when fuel runs out. A result of `none` for every fuel
  value is how the embedding expresses non-termination of the source.
* The driver `parse` in the source prints each parsed object; the embedding
  collects those objects in order, which models the sequence of top-level
  values the driver produces.
-/

namespace Rusp

/-- UTF-8 byte length of a text, modelling Rust `String::len` (a byte count,
not a codepoint count). -/
def byteLen (t : List Char) : Nat := (t.map Char.utf8Size).sum

/-- The parser state of src/main.rs: a current position and the input text.
The source calls this struct `Parser`; its position is an index that the
source uses both against the byte length (`has_next_char`) and as a
codepoint index (`current_char`). -/
structure Cursor where
  curr_pos : Nat
  text : List Char
deriving DecidableEq

/-- The tag enum `ObjectType` of src/main.rs. -/
inductive ObjectType where
  | SYMBOL
  | STRING
  | NUMBER
  | BOOLEAN
  | LIST
deriving DecidableEq

mutual
/-- The payload enum `ObjectVal` of src/main.rs. -/
inductive ObjectVal where
  | ListValue (l : List Object)
  | IntegerValue (n : Int)
  | StringValue (s : List Char)
/-- The struct `Object` of src/main.rs: a tag and an optional payload. -/
inductive Object where
  | mk (t : ObjectType) (v : Option ObjectVal)
end

/-- The error kinds of the reader, one per panic site of src/main.rs:
`EmptyInput` for the `panic!("EOF")` in `parse`, `UnexpectedEndOfInput`
for every `Unexpected EOF` panic (the `expect` calls in `current_char`
and `next_char` and the explicit panics in `read_list` and `read_str`),
`InvalidCharacter` for the dispatcher panic in `read_expr`, and
`NotANumber` for the `expect` on the numeric conversion in `read_number`. -/
inductive ParseError where
  | EmptyInput
  | UnexpectedEndOfInput
  | InvalidCharacter (c : Char)
  | NotANumber
deriving DecidableEq

/-- Result of a reader step: a panic (`Except.error`) or a value. -/
abbrev PResult (α : Type) := Except ParseError α

/-- `create_object` of src/main.rs: a tag with an absent payload. -/
def create_object (t : ObjectType) : Object := .mk t none

/-- `create_sym_obj` of src/main.rs: SYMBOL tag, string payload. -/
def create_sym_obj (content : List Char) : Object :=
  .mk ObjectType.SYMBOL (some (.StringValue content))

/-- `create_bool_obj` of src/main.rs: BOOLEAN tag, the flag as an integer
payload. No reader ever calls this function. -/
def create_bool_obj (value : Bool) : Object :=
  .mk ObjectType.BOOLEAN (some (.IntegerValue (if value then 1 else 0)))

/-- `create_num_obj` of src/main.rs: NUMBER tag, integer payload. -/
def create_num_obj (content : Int) : Object :=
  .mk ObjectType.NUMBER (some (.IntegerValue content))

/-- `create_str_obj` of src/main.rs: STRING tag, string payload. -/
def create_str_obj (str : List Char) : Object :=
  .mk ObjectType.STRING (some (.StringValue str))

/-- `create_list_obj` of src/main.rs: LIST tag, list payload. -/
def create_list_obj (content : List Object) : Object :=
  .mk ObjectType.LIST (some (.ListValue content))

/-- `has_next_char` of src/main.rs: `parser.curr_pos < parser.text.len()`.
Note the comparison is against the BYTE length of the text while the
position is advanced one codepoint at a time. -/
def has_next_char (p : Cursor) : Bool := p.curr_pos < byteLen p.text

/-- `current_char` of src/main.rs: `text.chars().nth(curr_pos)`, a
codepoint lookup, panicking with `Unexpected EOF` when absent. -/
def current_char (p : Cursor) : PResult Char :=
  match p.text[p.curr_pos]? with
  | some c => .ok c
  | none => .error ParseError.UnexpectedEndOfInput

/-- `skip_char` of src/main.rs: advance the position by one. -/
def skip_char (p : Cursor) : Cursor := { p with curr_pos := p.curr_pos + 1 }

/-- `next_char` of src/main.rs: advance the position by one, then read the
codepoint at the NEW position, panicking with `Unexpected EOF` when the
new position is past the last codepoint. -/
def next_char (p : Cursor) : PResult (Char × Cursor) :=
  let p1 := skip_char p
  match p1.text[p1.curr_pos]? with
  | some c => .ok (c, p1)
  | none => .error ParseError.UnexpectedEndOfInput

/-- `expect_char` of src/main.rs: compare the current codepoint with `ch`;
inherits the panic of `current_char` at end of input. -/
def expect_char (p : Cursor) (ch : Char) : PResult Bool :=
  match current_char p with
  | .ok c => .ok (c == ch)
  | .error e => .error e

/-- Models Rust `char::is_numeric`, which is true for the Unicode Number
classes (Nd, Nl, No). The model is exact on the ASCII range, where that
property holds exactly for the decimal digits 0..9, and is FALSE on every
non-ASCII codepoint, so it under-approximates Rust on non-ASCII numeric
codepoints: theorems that quantify over characters and depend on this
classifier therefore restrict their quantification to ASCII. -/
def rust_is_numeric (c : Char) : Bool := c.isDigit

/-- Models Rust `char::is_alphanumeric`, which is true for the Unicode
Alphabetic and Number classes. The model is exact on the ASCII range,
where the property holds exactly for the ASCII letters and digits, and is
FALSE on every non-ASCII codepoint, so it under-approximates Rust on
non-ASCII letters: theorems that quantify over characters and depend on
this classifier therefore restrict their quantification to ASCII. -/
def rust_is_alphanumeric (c : Char) : Bool := c.isAlphanum

/-- `is_symbol` of src/main.rs. -/
def is_symbol (chr : Char) : Bool :=
  rust_is_alphanumeric chr || chr == '+' || chr == '-' || chr == '/' || chr == '*'

/-- Models `str::parse::<i32>` on the accumulated digit buffer of
`read_number`: fails on an empty or non-digit buffer and on i32 overflow,
otherwise yields the decimal value. (The buffer handed to it by
`read_number` is digit-only by construction, so the sign forms accepted by
Rust are irrelevant here.) -/
def parse_i32 (s : List Char) : Option Int :=
  if s = [] then none
  else if s.all Char.isDigit then
    let v : Int := s.foldl (fun a c => a * 10 + ((c.toNat : Int) - 48)) 0
    if v ≤ 2147483647 then some v else none
  else none

/-- The accumulation loop of `read_number` in src/main.rs:
`while has_next_char(parser) && chr.is_numeric() { alpha_value += chr }`.
Neither `chr` nor the cursor changes inside the loop body, faithful to the
source: once entered the loop never exits, so the fueled embedding returns
`none` for every fuel value. -/
def read_number_loop (fuel : Nat) (chr : Char) (alpha_value : List Char)
    (p : Cursor) : Option (PResult (List Char × Cursor)) :=
  match fuel with
  | 0 => none
  | fuel+1 =>
    if has_next_char p && rust_is_numeric chr then
      read_number_loop fuel chr (alpha_value ++ [chr]) p
    else
      some (.ok (alpha_value, p))

/-- `read_number` of src/main.rs: read the current codepoint, run the
(non-advancing) digit accumulation loop, convert the buffer with
`parse::<i32>` (panicking with `NotANumber` on failure), and wrap the
value with `create_num_obj`. -/
def read_number (fuel : Nat) (p : Cursor) : Option (PResult (Object × Cursor)) :=
  match fuel with
  | 0 => none
  | fuel+1 =>
    match current_char p with
    | .error e => some (.error e)
    | .ok chr =>
      match read_number_loop fuel chr [] p with
      | none => none
      | some (.error e) => some (.error e)
      | some (.ok (alpha_value, p1)) =>
        match parse_i32 alpha_value with
        | none => some (.error ParseError.NotANumber)
        | some n => some (.ok (create_num_obj n, p1))

/-- The accumulation loop of `read_symbol` in src/main.rs:
`while has_next_char(parser) && is_symbol(chr) { symbol += chr; chr = next_char(parser) }`.
`next_char` advances and then reads, so it panics when the accepted
character was the last codepoint of the input. -/
def read_symbol_loop (fuel : Nat) (chr : Char) (symbol : List Char)
    (p : Cursor) : Option (PResult (List Char × Cursor)) :=
  match fuel with
  | 0 => none
  | fuel+1 =>
    if has_next_char p && is_symbol chr then
      match next_char p with
      | .error e => some (.error e)
      | .ok (c1, p1) => read_symbol_loop fuel c1 (symbol ++ [chr]) p1
    else
      some (.ok (symbol, p))

/-- `read_symbol` of src/main.rs: read the current codepoint, run the
accumulation loop, and wrap the buffer with `create_sym_obj`. -/
def read_symbol (fuel : Nat) (p : Cursor) : Option (PResult (Object × Cursor)) :=
  match fuel with
  | 0 => none
  | fuel+1 =>
    match current_char p with
    | .error e => some (.error e)
    | .ok chr =>
      match read_symbol_loop fuel chr [] p with
      | none => none
      | some (.error e) => some (.error e)
      | some (.ok (symbol, p1)) => some (.ok (create_sym_obj symbol, p1))

/-- The accumulation loop of `read_str` in src/main.rs:
`while !expect_char(parser, DQUOTE) { if !has_next_char(parser) panic; str += chr; chr = next_char(parser) }`.
The loop condition re-reads the current codepoint and so panics at end of
input before the explicit `has_next_char` guard can fire. -/
def read_str_loop (fuel : Nat) (chr : Char) (str : List Char)
    (p : Cursor) : Option (PResult (List Char × Cursor)) :=
  match fuel with
  | 0 => none
  | fuel+1 =>
    match expect_char p '"' with
    | .error e => some (.error e)
    | .ok true => some (.ok (str, p))
    | .ok false =>
      if !has_next_char p then
        some (.error ParseError.UnexpectedEndOfInput)
      else
        match next_char p with
        | .error e => some (.error e)
        | .ok (c1, p1) => read_str_loop fuel c1 (str ++ [chr]) p1

/-- `read_str` of src/main.rs: skip the opening quote, read the current
codepoint (panicking at end of input), run the accumulation loop, skip the
closing quote and wrap the buffer with `create_str_obj`. -/
def read_str (fuel : Nat) (p : Cursor) : Option (PResult (Object × Cursor)) :=
  match fuel with
  | 0 => none
  | fuel+1 =>
    let p1 := skip_char p
    match current_char p1 with
    | .error e => some (.error e)
    | .ok chr =>
      match read_str_loop fuel chr [] p1 with
      | none => none
      | some (.error e) => some (.error e)
      | some (.ok (str, p2)) => some (.ok (create_str_obj str, skip_char p2))

mutual
/-- `read_expr` of src/main.rs, the dispatcher: read the current codepoint
(panicking at end of input), then dispatch: an opening parenthesis goes to
`read_list`; a space, carriage return or newline is skipped and the
dispatcher recurses; a double quote goes to `read_str`; a numeric
character goes to `read_number`; a symbol character goes to `read_symbol`;
anything else panics with `InvalidCharacter`. The source writes this as a
Rust `match`; the embedding uses an equivalent chain of conditionals. -/
def read_expr (fuel : Nat) (p : Cursor) : Option (PResult (Object × Cursor)) :=
  match fuel with
  | 0 => none
  | fuel+1 =>
    match current_char p with
    | .error e => some (.error e)
    | .ok chr =>
      if chr = '(' then
        read_list fuel p
      else if chr = ' ' ∨ chr = '\r' ∨ chr = '\n' then
        read_expr fuel (skip_char p)
      else if chr = '"' then
        read_str fuel p
      else if rust_is_numeric chr then
        read_number fuel p
      else if is_symbol chr then
        read_symbol fuel p
      else
        some (.error (ParseError.InvalidCharacter chr))

/-- `read_list` of src/main.rs: skip the opening parenthesis, run the
element loop, skip the closing parenthesis and wrap the elements with
`create_list_obj`. -/
def read_list (fuel : Nat) (p : Cursor) : Option (PResult (Object × Cursor)) :=
  match fuel with
  | 0 => none
  | fuel+1 =>
    match read_list_loop fuel [] (skip_char p) with
    | none => none
    | some (.error e) => some (.error e)
    | some (.ok (list, p1)) => some (.ok (create_list_obj list, skip_char p1))

/-- The element loop of `read_list` in src/main.rs:
`while !expect_char(parser, RPAREN) { if !has_next_char(parser) panic; list.push(read_expr(parser)) }`.
The loop condition re-reads the current codepoint and so panics at end of
input before the explicit `has_next_char` guard can fire. -/
def read_list_loop (fuel : Nat) (list : List Object)
    (p : Cursor) : Option (PResult (List Object × Cursor)) :=
  match fuel with
  | 0 => none
  | fuel+1 =>
    match expect_char p ')' with
    | .error e => some (.error e)
    | .ok true => some (.ok (list, p))
    | .ok false =>
      if !has_next_char p then
        some (.error ParseError.UnexpectedEndOfInput)
      else
        match read_expr fuel p with
        | none => none
        | some (.error e) => some (.error e)
        | some (.ok (obj, p1)) => read_list_loop fuel (list ++ [obj]) p1
end

/-- The driver loop of `parse` in src/main.rs:
`while has_next_char(parser) { println(read_expr(parser)) }`. The printed
objects are collected in order. -/
def parse_loop (fuel : Nat) (acc : List Object)
    (p : Cursor) : Option (PResult (List Object)) :=
  match fuel with
  | 0 => none
  | fuel+1 =>
    if has_next_char p then
      match read_expr fuel p with
      | none => none
      | some (.error e) => some (.error e)
      | some (.ok (obj, p1)) => parse_loop fuel (acc ++ [obj]) p1
    else
      some (.ok acc)

/-- `parse` of src/main.rs, applied (as in `main`) to a cursor at position
zero over the input text: panic with `EOF` (the EmptyInput kind) when the
text has zero length, otherwise run the driver loop. -/
def parse (fuel : Nat) (text : List Char) : Option (PResult (List Object)) :=
  if byteLen text = 0 then
    some (.error ParseError.EmptyInput)
  else
    parse_loop fuel [] { curr_pos := 0, text := text }

/-- Well-formedness of a parsed object: the payload is present and matches
the tag (SYMBOL and STRING carry a StringValue, NUMBER an IntegerValue,
LIST a ListValue whose elements are themselves well formed), and the tag
is never BOOLEAN. -/
inductive ObjWF : Object → Prop where
  | sym (s : List Char) : ObjWF (.mk ObjectType.SYMBOL (some (.StringValue s)))
  | str (s : List Char) : ObjWF (.mk ObjectType.STRING (some (.StringValue s)))
  | num (n : Int) : ObjWF (.mk ObjectType.NUMBER (some (.IntegerValue n)))
  | list (l : List Object) (h : ∀ o ∈ l, ObjWF o) :
      ObjWF (.mk ObjectType.LIST (some (.ListValue l)))

end Rusp

/-!
Generic lemmas about the cursor primitives, phrased through `List.drop` so
that the reading loops can be handled by induction on the remaining input.
-/

namespace Rusp

theorem byteLen_cons (c : Char) (t : List Char) :
    byteLen (c :: t) = c.utf8Size + byteLen t := rfl

theorem length_le_byteLen (t : List Char) : t.length ≤ byteLen t := by
  induction t with
  | nil => simp [byteLen]
  | cons c t ih =>
    have := Char.utf8Size_pos c
    rw [byteLen_cons]
    simp only [List.length_cons]
    omega

theorem byteLen_ne_zero (c : Char) (t : List Char) : byteLen (c :: t) ≠ 0 := by
  have := Char.utf8Size_pos c
  rw [byteLen_cons]
  omega

theorem lt_of_drop_cons {text : List Char} {pos : Nat} {c : Char} {rest : List Char}
    (h : text.drop pos = c :: rest) : pos < text.length := by
  by_contra hn
  rw [List.drop_eq_nil_of_le (by omega)] at h
  exact List.noConfusion h

theorem getElem?_of_drop {text : List Char} {pos : Nat} {c : Char} {rest : List Char}
    (h : text.drop pos = c :: rest) : text[pos]? = some c := by
  have h0 := List.getElem?_drop text pos 0
  rw [h] at h0
  simpa using h0.symm

theorem drop_succ_of_drop {text : List Char} {pos : Nat} {c : Char} {rest : List Char}
    (h : text.drop pos = c :: rest) : text.drop (pos + 1) = rest := by
  rw [← List.tail_drop, h]
  rfl

theorem current_char_of_drop {text : List Char} {pos : Nat} {c : Char} {rest : List Char}
    (h : text.drop pos = c :: rest) :
    current_char { curr_pos := pos, text := text } = .ok c := by
  unfold current_char
  rw [show ({ curr_pos := pos, text := text } : Cursor).text[({ curr_pos := pos, text := text } : Cursor).curr_pos]? = text[pos]? from rfl]
  rw [getElem?_of_drop h]

theorem current_char_none {text : List Char} {pos : Nat}
    (h : text.length ≤ pos) :
    current_char { curr_pos := pos, text := text } = .error ParseError.UnexpectedEndOfInput := by
  unfold current_char
  rw [show ({ curr_pos := pos, text := text } : Cursor).text[({ curr_pos := pos, text := text } : Cursor).curr_pos]? = text[pos]? from rfl]
  rw [List.getElem?_eq_none h]

theorem current_char_error_eq {p : Cursor} {e : ParseError}
    (h : current_char p = .error e) : e = ParseError.UnexpectedEndOfInput := by
  unfold current_char at h
  split at h
  · exact Except.noConfusion h
  · exact (Except.error.injEq _ _ ▸ h).symm ▸ rfl

theorem next_char_eq (pos : Nat) (text : List Char) :
    next_char { curr_pos := pos, text := text } =
      match text[pos + 1]? with
      | some c => .ok (c, { curr_pos := pos + 1, text := text })
      | none => .error ParseError.UnexpectedEndOfInput := rfl

theorem next_char_of_drop {text : List Char} {pos : Nat} {c : Char} {rest : List Char}
    (h : text.drop (pos + 1) = c :: rest) :
    next_char { curr_pos := pos, text := text } =
      .ok (c, { curr_pos := pos + 1, text := text }) := by
  rw [next_char_eq, getElem?_of_drop h]

theorem next_char_none {text : List Char} {pos : Nat}
    (h : text.length ≤ pos + 1) :
    next_char { curr_pos := pos, text := text } = .error ParseError.UnexpectedEndOfInput := by
  rw [next_char_eq, List.getElem?_eq_none h]

theorem next_char_error_eq {p : Cursor} {e : ParseError}
    (h : next_char p = .error e) : e = ParseError.UnexpectedEndOfInput := by
  obtain ⟨pos, text⟩ := p
  rw [next_char_eq] at h
  split at h
  · exact Except.noConfusion h
  · exact (Except.error.injEq _ _ ▸ h).symm ▸ rfl

theorem expect_char_of_drop {text : List Char} {pos : Nat} {c : Char} {rest : List Char}
    (h : text.drop pos = c :: rest) (ch : Char) :
    expect_char { curr_pos := pos, text := text } ch = .ok (c == ch) := by
  unfold expect_char
  rw [current_char_of_drop h]

theorem expect_char_error_eq {p : Cursor} {ch : Char} {e : ParseError}
    (h : expect_char p ch = .error e) : e = ParseError.UnexpectedEndOfInput := by
  unfold expect_char at h
  split at h
  · exact Except.noConfusion h
  · rename_i e1 he
    cases h
    exact current_char_error_eq he

theorem has_next_of_lt {text : List Char} {pos : Nat} (h : pos < byteLen text) :
    has_next_char { curr_pos := pos, text := text } = true := by
  unfold has_next_char
  exact decide_eq_true h

theorem has_next_of_drop {text : List Char} {pos : Nat} {c : Char} {rest : List Char}
    (h : text.drop pos = c :: rest) :
    has_next_char { curr_pos := pos, text := text } = true :=
  has_next_of_lt (Nat.lt_of_lt_of_le (lt_of_drop_cons h) (length_le_byteLen text))

end Rusp

/-!
Step lemmas for the dispatcher `read_expr` and the driver, one per branch,
with the branch conditions as hypotheses.
-/

namespace Rusp

theorem read_expr_err {fuel : Nat} {p : Cursor} {e : ParseError}
    (h : current_char p = .error e) :
    read_expr (fuel + 1) p = some (.error e) := by
  unfold read_expr
  rw [h]

theorem read_expr_lparen {fuel : Nat} {p : Cursor}
    (h : current_char p = .ok '(') :
    read_expr (fuel + 1) p = read_list fuel p := by
  conv_lhs => unfold read_expr
  rw [h]
  exact rfl

theorem read_expr_ws {fuel : Nat} {p : Cursor} {c : Char}
    (h : current_char p = .ok c) (hws : c = ' ' ∨ c = '\r' ∨ c = '\n') :
    read_expr (fuel + 1) p = read_expr fuel (skip_char p) := by
  conv_lhs => unfold read_expr
  rw [h]
  rcases hws with h1 | h1 | h1 <;> subst h1 <;> exact rfl

theorem read_expr_quote {fuel : Nat} {p : Cursor}
    (h : current_char p = .ok '"') :
    read_expr (fuel + 1) p = read_str fuel p := by
  conv_lhs => unfold read_expr
  rw [h]
  exact rfl

theorem read_expr_digit {fuel : Nat} {p : Cursor} {c : Char}
    (h : current_char p = .ok c) (hd : rust_is_numeric c = true) :
    read_expr (fuel + 1) p = read_number fuel p := by
  have h1 : c ≠ '(' := by rintro rfl; simp [rust_is_numeric, Char.isDigit] at hd
  have h2 : ¬ (c = ' ' ∨ c = '\r' ∨ c = '\n') := by
    rintro (rfl | rfl | rfl) <;> simp [rust_is_numeric, Char.isDigit] at hd
  have h3 : c ≠ '"' := by rintro rfl; simp [rust_is_numeric, Char.isDigit] at hd
  conv_lhs => unfold read_expr
  rw [h]
  simp only [if_neg h1, if_neg h2, if_neg h3, if_pos hd]

theorem read_expr_symbolchar {fuel : Nat} {p : Cursor} {c : Char}
    (h : current_char p = .ok c) (hs : is_symbol c = true)
    (hd : rust_is_numeric c = false) :
    read_expr (fuel + 1) p = read_symbol fuel p := by
  have h1 : c ≠ '(' := by
    rintro rfl; simp [is_symbol, rust_is_alphanumeric, Char.isAlphanum,
      Char.isAlpha, Char.isUpper, Char.isLower, Char.isDigit] at hs
  have h2 : ¬ (c = ' ' ∨ c = '\r' ∨ c = '\n') := by
    rintro (rfl | rfl | rfl) <;> simp [is_symbol, rust_is_alphanumeric, Char.isAlphanum,
      Char.isAlpha, Char.isUpper, Char.isLower, Char.isDigit] at hs
  have h3 : c ≠ '"' := by
    rintro rfl; simp [is_symbol, rust_is_alphanumeric, Char.isAlphanum,
      Char.isAlpha, Char.isUpper, Char.isLower, Char.isDigit] at hs
  conv_lhs => unfold read_expr
  rw [h]
  simp only [if_neg h1, if_neg h2, if_neg h3, hd, if_pos hs]
  exact rfl

theorem read_expr_invalid {fuel : Nat} {p : Cursor} {c : Char}
    (h : current_char p = .ok c)
    (h1 : c ≠ '(') (h2 : c ≠ ' ') (h3 : c ≠ '\r') (h4 : c ≠ '\n') (h5 : c ≠ '"')
    (hd : rust_is_numeric c = false) (hs : is_symbol c = false) :
    read_expr (fuel + 1) p = some (.error (ParseError.InvalidCharacter c)) := by
  have h6 : ¬ (c = ' ' ∨ c = '\r' ∨ c = '\n') := by rintro (rfl | rfl | rfl) <;> simp_all
  conv_lhs => unfold read_expr
  rw [h]
  simp only [if_neg h1, if_neg h6, if_neg h5, hd, hs]
  exact rfl

theorem read_list_eq (fuel : Nat) (p : Cursor) :
    read_list (fuel + 1) p =
      match read_list_loop fuel [] (skip_char p) with
      | none => none
      | some (.error e) => some (.error e)
      | some (.ok (list, p1)) => some (.ok (create_list_obj list, skip_char p1)) := by
  conv_lhs => unfold read_list

theorem read_list_loop_ret {fuel : Nat} {list : List Object} {p : Cursor}
    (h : expect_char p ')' = .ok true) :
    read_list_loop (fuel + 1) list p = some (.ok (list, p)) := by
  conv_lhs => unfold read_list_loop
  rw [h]

theorem read_list_loop_step {fuel : Nat} {list : List Object} {p : Cursor}
    (h : expect_char p ')' = .ok false) (hn : has_next_char p = true) :
    read_list_loop (fuel + 1) list p =
      match read_expr fuel p with
      | none => none
      | some (.error e) => some (.error e)
      | some (.ok (obj, p1)) => read_list_loop fuel (list ++ [obj]) p1 := by
  conv_lhs => unfold read_list_loop
  rw [h, hn]
  exact rfl

theorem read_list_loop_err {fuel : Nat} {list : List Object} {p : Cursor} {e : ParseError}
    (h : expect_char p ')' = .error e) :
    read_list_loop (fuel + 1) list p = some (.error e) := by
  conv_lhs => unfold read_list_loop
  rw [h]

theorem parse_loop_stop {fuel : Nat} {acc : List Object} {p : Cursor}
    (h : has_next_char p = false) :
    parse_loop (fuel + 1) acc p = some (.ok acc) := by
  conv_lhs => unfold parse_loop
  rw [h]
  exact rfl

theorem parse_loop_step {fuel : Nat} {acc : List Object} {p : Cursor}
    (h : has_next_char p = true) :
    parse_loop (fuel + 1) acc p =
      match read_expr fuel p with
      | none => none
      | some (.error e) => some (.error e)
      | some (.ok (obj, p1)) => parse_loop fuel (acc ++ [obj]) p1 := by
  conv_lhs => unfold parse_loop
  rw [h]
  exact rfl

theorem parse_eq {fuel : Nat} {text : List Char} (h : byteLen text ≠ 0) :
    parse fuel text = parse_loop fuel [] { curr_pos := 0, text := text } := by
  unfold parse
  rw [if_neg h]

end Rusp

/-!
Universal lemmas about the individual readers: the digit loop of
`read_number` never terminates once entered; `read_symbol` fails at end of
input when the symbol run reaches the end of the text; `read_str` fails on
an unclosed string and returns the enclosed characters on a closed one.
-/

namespace Rusp

theorem read_number_loop_stuck (fuel : Nat) (chr : Char) (alpha : List Char) (p : Cursor)
    (hh : has_next_char p = true) (hn : rust_is_numeric chr = true) :
    read_number_loop fuel chr alpha p = none := by
  induction fuel generalizing alpha with
  | zero => rfl
  | succ f ih =>
    conv_lhs => unfold read_number_loop
    rw [hh, hn]
    exact ih (alpha ++ [chr])

theorem read_number_stuck (fuel : Nat) (p : Cursor) (chr : Char)
    (hc : current_char p = .ok chr) (hh : has_next_char p = true)
    (hn : rust_is_numeric chr = true) : read_number fuel p = none := by
  cases fuel with
  | zero => rfl
  | succ f =>
    simp only [read_number, hc, read_number_loop_stuck f chr [] p hh hn]

theorem read_symbol_loop_run_to_end (rest : List Char) : ∀ (fuel pos : Nat) (chr : Char)
    (symbol text : List Char),
    text.drop pos = chr :: rest →
    is_symbol chr = true → (∀ c ∈ rest, is_symbol c = true) →
    rest.length < fuel →
    read_symbol_loop fuel chr symbol { curr_pos := pos, text := text } =
      some (.error ParseError.UnexpectedEndOfInput) := by
  induction rest with
  | nil =>
    intro fuel pos chr symbol text hd hs _ hf
    obtain ⟨f, rfl⟩ : ∃ f, fuel = f + 1 := ⟨fuel - 1, by omega⟩
    have hlen : text.length ≤ pos + 1 :=
      List.drop_eq_nil_iff.mp (drop_succ_of_drop hd)
    conv_lhs => unfold read_symbol_loop
    rw [has_next_of_drop hd, hs, next_char_none hlen]
    exact rfl
  | cons c2 rest2 ih =>
    intro fuel pos chr symbol text hd hs hall hf
    obtain ⟨f, rfl⟩ : ∃ f, fuel = f + 1 := ⟨fuel - 1, by omega⟩
    have hd2 : text.drop (pos + 1) = c2 :: rest2 := drop_succ_of_drop hd
    conv_lhs => unfold read_symbol_loop
    rw [has_next_of_drop hd, hs]
    simp only [next_char_of_drop hd2]
    exact ih f (pos + 1) c2 (symbol ++ [chr]) text hd2
      (hall c2 (List.mem_cons_self c2 rest2))
      (fun c hc => hall c (List.mem_cons_of_mem c2 hc))
      (by simp only [List.length_cons] at hf; omega)

theorem read_symbol_run_to_end (text : List Char) (pos fuel : Nat)
    (hlt : pos < text.length)
    (hall : ∀ c ∈ text.drop pos, is_symbol c = true)
    (hf : text.length - pos < fuel) :
    read_symbol fuel { curr_pos := pos, text := text } =
      some (.error ParseError.UnexpectedEndOfInput) := by
  obtain ⟨f, rfl⟩ : ∃ f, fuel = f + 1 := ⟨fuel - 1, by omega⟩
  have hd : text.drop pos = text[pos] :: text.drop (pos + 1) :=
    List.drop_eq_getElem_cons hlt
  simp only [read_symbol, current_char_of_drop hd,
    read_symbol_loop_run_to_end (text.drop (pos + 1)) f pos (text[pos]) [] text hd
      (hall _ (by rw [hd]; exact List.mem_cons_self _ _))
      (fun c hc => hall c (by rw [hd]; exact List.mem_cons_of_mem _ hc))
      (by rw [List.length_drop]; omega)]

end Rusp

namespace Rusp

theorem read_str_eq (fuel pos : Nat) (text : List Char) :
    read_str (fuel + 1) { curr_pos := pos, text := text } =
      match current_char { curr_pos := pos + 1, text := text } with
      | .error e => some (.error e)
      | .ok chr =>
        match read_str_loop fuel chr [] { curr_pos := pos + 1, text := text } with
        | none => none
        | some (.error e) => some (.error e)
        | some (.ok (str, p2)) => some (.ok (create_str_obj str, skip_char p2)) := rfl

theorem read_str_loop_no_quote (rest : List Char) : ∀ (fuel pos : Nat) (chr : Char)
    (str text : List Char),
    text.drop pos = chr :: rest → chr ≠ '"' → ('"' : Char) ∉ rest →
    rest.length < fuel →
    read_str_loop fuel chr str { curr_pos := pos, text := text } =
      some (.error ParseError.UnexpectedEndOfInput) := by
  induction rest with
  | nil =>
    intro fuel pos chr str text hd hne _ hf
    obtain ⟨f, rfl⟩ : ∃ f, fuel = f + 1 := ⟨fuel - 1, by omega⟩
    have hlen : text.length ≤ pos + 1 :=
      List.drop_eq_nil_iff.mp (drop_succ_of_drop hd)
    have hb : (chr == '"') = false := beq_eq_false_iff_ne.mpr hne
    conv_lhs => unfold read_str_loop
    rw [expect_char_of_drop hd, hb, has_next_of_drop hd, next_char_none hlen]
    exact rfl
  | cons c2 rest2 ih =>
    intro fuel pos chr str text hd hne hq hf
    obtain ⟨f, rfl⟩ : ∃ f, fuel = f + 1 := ⟨fuel - 1, by omega⟩
    have hd2 : text.drop (pos + 1) = c2 :: rest2 := drop_succ_of_drop hd
    have hb : (chr == '"') = false := beq_eq_false_iff_ne.mpr hne
    conv_lhs => unfold read_str_loop
    rw [expect_char_of_drop hd, hb, has_next_of_drop hd]
    simp only [next_char_of_drop hd2, Bool.not_true, Bool.false_eq_true, if_false]
    exact ih f (pos + 1) c2 (str ++ [chr]) text hd2
      (fun hx => hq (hx ▸ List.mem_cons_self c2 rest2))
      (fun hx => hq (List.mem_cons_of_mem c2 hx))
      (by simp only [List.length_cons] at hf; omega)

theorem read_str_unclosed {text : List Char} {pos : Nat} {rest : List Char} {fuel : Nat}
    (hd : text.drop pos = '"' :: rest) (hq : ('"' : Char) ∉ rest)
    (hf : rest.length + 2 ≤ fuel) :
    read_str fuel { curr_pos := pos, text := text } =
      some (.error ParseError.UnexpectedEndOfInput) := by
  obtain ⟨f, rfl⟩ : ∃ f, fuel = f + 1 := ⟨fuel - 1, by omega⟩
  rw [read_str_eq]
  cases rest with
  | nil =>
    have hlen : text.length ≤ pos + 1 :=
      List.drop_eq_nil_iff.mp (drop_succ_of_drop hd)
    rw [current_char_none hlen]
  | cons c2 rest2 =>
    have hd2 : text.drop (pos + 1) = c2 :: rest2 := drop_succ_of_drop hd
    rw [current_char_of_drop hd2]
    simp only [read_str_loop_no_quote rest2 f (pos + 1) c2 [] text hd2
      (fun hx => hq (hx ▸ List.mem_cons_self c2 rest2))
      (fun hx => hq (List.mem_cons_of_mem c2 hx))
      (by simp only [List.length_cons] at hf; omega)]

theorem read_str_loop_closed (mid : List Char) : ∀ (fuel pos : Nat) (chr : Char)
    (str text post : List Char),
    text.drop pos = mid ++ '"' :: post →
    text[pos]? = some chr →
    ('"' : Char) ∉ mid →
    mid.length < fuel →
    read_str_loop fuel chr str { curr_pos := pos, text := text } =
      some (.ok (str ++ mid, { curr_pos := pos + mid.length, text := text })) := by
  induction mid with
  | nil =>
    intro fuel pos chr str text post hd hc _ hf
    obtain ⟨f, rfl⟩ : ∃ f, fuel = f + 1 := ⟨fuel - 1, by omega⟩
    simp only [List.nil_append] at hd
    have hchr : chr = '"' := by
      have := getElem?_of_drop hd
      rw [hc] at this
      exact (Option.some.injEq _ _ ▸ this)
    subst hchr
    conv_lhs => unfold read_str_loop
    rw [expect_char_of_drop hd]
    simp

  | cons m mid2 ih =>
    intro fuel pos chr str text post hd hc hq hf
    obtain ⟨f, rfl⟩ : ∃ f, fuel = f + 1 := ⟨fuel - 1, by omega⟩
    rw [List.cons_append] at hd
    have hchr : chr = m := by
      have := getElem?_of_drop hd
      rw [hc] at this
      exact (Option.some.injEq _ _ ▸ this)
    rw [hchr]
    have hne : m ≠ '"' := fun hx => hq (hx ▸ List.mem_cons_self m mid2)
    have hb : (m == '"') = false := beq_eq_false_iff_ne.mpr hne
    have hd2 : text.drop (pos + 1) = mid2 ++ '"' :: post := drop_succ_of_drop hd
    have hne2 : mid2 ++ '"' :: post ≠ [] := by simp
    obtain ⟨c2, rest2, hx⟩ := List.exists_cons_of_ne_nil hne2
    have hd2c : text.drop (pos + 1) = c2 :: rest2 := by rw [hd2, hx]
    have hc2 : text[pos + 1]? = some c2 := getElem?_of_drop hd2c
    conv_lhs => unfold read_str_loop
    rw [expect_char_of_drop hd, hb, has_next_of_drop hd]
    simp only [next_char_of_drop hd2c, Bool.not_true, Bool.false_eq_true, if_false]
    rw [ih f (pos + 1) c2 (str ++ [m]) text post hd2 hc2
      (fun hx2 => hq (List.mem_cons_of_mem m hx2))
      (by simp only [List.length_cons] at hf; omega)]
    simp only [Option.some.injEq, Except.ok.injEq, Prod.mk.injEq, Cursor.mk.injEq,
      List.append_assoc, List.singleton_append, List.length_cons]
    exact ⟨trivial, by omega, trivial⟩

end Rusp

namespace Rusp

theorem read_str_closed {text : List Char} {pos : Nat} {mid post : List Char} {fuel : Nat}
    (hd : text.drop pos = '"' :: (mid ++ '"' :: post))
    (hq : ('"' : Char) ∉ mid)
    (hf : mid.length + 2 ≤ fuel) :
    read_str fuel { curr_pos := pos, text := text } =
      some (.ok (create_str_obj mid,
        { curr_pos := pos + mid.length + 2, text := text })) := by
  obtain ⟨f, rfl⟩ : ∃ f, fuel = f + 1 := ⟨fuel - 1, by omega⟩
  rw [read_str_eq]
  have hd2 : text.drop (pos + 1) = mid ++ '"' :: post := drop_succ_of_drop hd
  have hne2 : mid ++ '"' :: post ≠ [] := by simp
  obtain ⟨c2, rest2, hx⟩ := List.exists_cons_of_ne_nil hne2
  have hd2c : text.drop (pos + 1) = c2 :: rest2 := by rw [hd2, hx]
  have hc2 : text[pos + 1]? = some c2 := getElem?_of_drop hd2c
  rw [current_char_of_drop hd2c]
  simp only [read_str_loop_closed mid f (pos + 1) c2 [] text post hd2 hc2 hq (by omega)]
  simp only [List.nil_append, skip_char, Option.some.injEq, Except.ok.injEq,
    Prod.mk.injEq, Cursor.mk.injEq]
  exact ⟨trivial, by omega, trivial⟩

theorem parse_unclosed_string {rest : List Char} {fuel : Nat}
    (hq : ('"' : Char) ∉ rest) (hf : rest.length + 4 ≤ fuel) :
    parse fuel ('"' :: rest) = some (.error ParseError.UnexpectedEndOfInput) := by
  obtain ⟨f, rfl⟩ : ∃ f, fuel = f + 2 := ⟨fuel - 2, by omega⟩
  rw [parse_eq (byteLen_ne_zero _ _)]
  rw [parse_loop_step (has_next_of_lt (by
    have := byteLen_ne_zero '"' rest
    omega))]
  have hd : ('"' :: rest).drop 0 = '"' :: rest := rfl
  rw [read_expr_quote (current_char_of_drop hd)]
  rw [read_str_unclosed hd hq (by omega)]

end Rusp

/-!
The `EmptyInput` error kind is produced by exactly one site, the zero
length check in `parse`: no reader ever produces it.
-/

namespace Rusp

theorem read_str_loop_ne_empty (fuel : Nat) : ∀ (chr : Char) (str : List Char) (p : Cursor),
    read_str_loop fuel chr str p ≠ some (.error ParseError.EmptyInput) := by
  induction fuel with
  | zero => intro chr str p h; exact Option.noConfusion h
  | succ f ih =>
    intro chr str p h
    simp only [read_str_loop] at h
    split at h
    · rename_i e heq
      have := expect_char_error_eq heq
      simp_all
    · simp_all
    · split at h
      · simp_all
      · split at h
        · rename_i e heq
          have := next_char_error_eq heq
          simp_all
        · exact ih _ _ _ h

theorem read_symbol_loop_ne_empty (fuel : Nat) : ∀ (chr : Char) (symbol : List Char) (p : Cursor),
    read_symbol_loop fuel chr symbol p ≠ some (.error ParseError.EmptyInput) := by
  induction fuel with
  | zero => intro chr symbol p h; exact Option.noConfusion h
  | succ f ih =>
    intro chr symbol p h
    simp only [read_symbol_loop] at h
    split at h
    · split at h
      · rename_i e heq
        have := next_char_error_eq heq
        simp_all
      · exact ih _ _ _ h
    · simp_all

theorem read_number_loop_ne_empty (fuel : Nat) : ∀ (chr : Char) (alpha : List Char) (p : Cursor),
    read_number_loop fuel chr alpha p ≠ some (.error ParseError.EmptyInput) := by
  induction fuel with
  | zero => intro chr alpha p h; exact Option.noConfusion h
  | succ f ih =>
    intro chr alpha p h
    simp only [read_number_loop] at h
    split at h
    · exact ih _ _ _ h
    · simp_all

theorem read_str_ne_empty (fuel : Nat) (p : Cursor) :
    read_str fuel p ≠ some (.error ParseError.EmptyInput) := by
  cases fuel with
  | zero => intro h; exact Option.noConfusion h
  | succ f =>
    intro h
    simp only [read_str] at h
    split at h
    · rename_i e heq
      have := current_char_error_eq heq
      simp_all
    · split at h
      · exact Option.noConfusion h
      · rename_i e heq
        have he : e = ParseError.EmptyInput := by simp_all
        rw [he] at heq
        exact read_str_loop_ne_empty f _ _ _ heq
      · simp_all

theorem read_symbol_ne_empty (fuel : Nat) (p : Cursor) :
    read_symbol fuel p ≠ some (.error ParseError.EmptyInput) := by
  cases fuel with
  | zero => intro h; exact Option.noConfusion h
  | succ f =>
    intro h
    simp only [read_symbol] at h
    split at h
    · rename_i e heq
      have := current_char_error_eq heq
      simp_all
    · split at h
      · exact Option.noConfusion h
      · rename_i e heq
        have he : e = ParseError.EmptyInput := by simp_all
        rw [he] at heq
        exact read_symbol_loop_ne_empty f _ _ _ heq
      · simp_all

theorem read_number_ne_empty (fuel : Nat) (p : Cursor) :
    read_number fuel p ≠ some (.error ParseError.EmptyInput) := by
  cases fuel with
  | zero => intro h; exact Option.noConfusion h
  | succ f =>
    intro h
    simp only [read_number] at h
    split at h
    · rename_i e heq
      have := current_char_error_eq heq
      simp_all
    · split at h
      · exact Option.noConfusion h
      · rename_i e heq
        have he : e = ParseError.EmptyInput := by simp_all
        rw [he] at heq
        exact read_number_loop_ne_empty f _ _ _ heq
      · split at h
        · simp_all
        · simp_all

theorem expr_list_ne_empty : ∀ fuel : Nat,
    (∀ p, read_expr fuel p ≠ some (.error ParseError.EmptyInput)) ∧
    (∀ p, read_list fuel p ≠ some (.error ParseError.EmptyInput)) ∧
    (∀ acc p, read_list_loop fuel acc p ≠ some (.error ParseError.EmptyInput)) := by
  intro fuel
  induction fuel with
  | zero =>
    exact ⟨fun p h => Option.noConfusion h, fun p h => Option.noConfusion h,
      fun acc p h => Option.noConfusion h⟩
  | succ f ih =>
    obtain ⟨ihe, ihl, ihll⟩ := ih
    refine ⟨?_, ?_, ?_⟩
    · intro p h
      simp only [read_expr] at h
      split at h
      · rename_i e heq
        have := current_char_error_eq heq
        simp_all
      · split at h
        · exact ihl _ h
        · split at h
          · exact ihe _ h
          · split at h
            · exact read_str_ne_empty f _ h
            · split at h
              · exact read_number_ne_empty f _ h
              · split at h
                · exact read_symbol_ne_empty f _ h
                · simp_all
    · intro p h
      simp only [read_list] at h
      split at h
      · exact Option.noConfusion h
      · rename_i e heq
        have he : e = ParseError.EmptyInput := by simp_all
        rw [he] at heq
        exact ihll _ _ heq
      · simp_all
    · intro acc p h
      simp only [read_list_loop] at h
      split at h
      · rename_i e heq
        have := expect_char_error_eq heq
        simp_all
      · simp_all
      · split at h
        · simp_all
        · split at h
          · exact Option.noConfusion h
          · rename_i e heq
            have he : e = ParseError.EmptyInput := by simp_all
            rw [he] at heq
            exact ihe _ heq
          · exact ihll _ _ h

theorem parse_loop_ne_empty (fuel : Nat) : ∀ (acc : List Object) (p : Cursor),
    parse_loop fuel acc p ≠ some (.error ParseError.EmptyInput) := by
  induction fuel with
  | zero => intro acc p h; exact Option.noConfusion h
  | succ f ih =>
    intro acc p h
    simp only [parse_loop] at h
    split at h
    · split at h
      · exact Option.noConfusion h
      · rename_i e heq
        have he : e = ParseError.EmptyInput := by simp_all
        rw [he] at heq
        exact (expr_list_ne_empty f).1 _ heq
      · exact ih _ _ h
    · simp_all

end Rusp

/-!
Well-formedness of every object a reader can return: the payload always
matches the tag, and no reader ever builds a BOOLEAN object.
-/

namespace Rusp

/-- The `_type` field of an `Object`. -/
def Object.tag : Object → ObjectType
  | .mk t _ => t

theorem ObjWF.tag_ne_boolean {obj : Object} (h : ObjWF obj) :
    Object.tag obj ≠ ObjectType.BOOLEAN := by
  cases h <;> intro hx <;> exact ObjectType.noConfusion hx

theorem read_str_wf {fuel : Nat} {p p1 : Cursor} {obj : Object}
    (h : read_str fuel p = some (.ok (obj, p1))) : ObjWF obj := by
  cases fuel with
  | zero => exact Option.noConfusion h
  | succ f =>
    simp only [read_str] at h
    split at h
    · simp_all
    · split at h
      · exact Option.noConfusion h
      · simp_all
      · simp only [Option.some.injEq, Except.ok.injEq, Prod.mk.injEq] at h
        rw [← h.1]
        exact ObjWF.str _

theorem read_symbol_wf {fuel : Nat} {p p1 : Cursor} {obj : Object}
    (h : read_symbol fuel p = some (.ok (obj, p1))) : ObjWF obj := by
  cases fuel with
  | zero => exact Option.noConfusion h
  | succ f =>
    simp only [read_symbol] at h
    split at h
    · simp_all
    · split at h
      · exact Option.noConfusion h
      · simp_all
      · simp only [Option.some.injEq, Except.ok.injEq, Prod.mk.injEq] at h
        rw [← h.1]
        exact ObjWF.sym _

theorem read_number_wf {fuel : Nat} {p p1 : Cursor} {obj : Object}
    (h : read_number fuel p = some (.ok (obj, p1))) : ObjWF obj := by
  cases fuel with
  | zero => exact Option.noConfusion h
  | succ f =>
    simp only [read_number] at h
    split at h
    · simp_all
    · split at h
      · exact Option.noConfusion h
      · simp_all
      · split at h
        · simp_all
        · simp only [Option.some.injEq, Except.ok.injEq, Prod.mk.injEq] at h
          rw [← h.1]
          exact ObjWF.num _

theorem expr_list_wf : ∀ fuel : Nat,
    (∀ p obj p1, read_expr fuel p = some (.ok (obj, p1)) → ObjWF obj) ∧
    (∀ p obj p1, read_list fuel p = some (.ok (obj, p1)) → ObjWF obj) ∧
    (∀ acc p l p1, read_list_loop fuel acc p = some (.ok (l, p1)) →
      (∀ o ∈ acc, ObjWF o) → ∀ o ∈ l, ObjWF o) := by
  intro fuel
  induction fuel with
  | zero =>
    exact ⟨fun _ _ _ h => Option.noConfusion h, fun _ _ _ h => Option.noConfusion h,
      fun _ _ _ _ h => Option.noConfusion h⟩
  | succ f ih =>
    obtain ⟨ihe, ihl, ihll⟩ := ih
    refine ⟨?_, ?_, ?_⟩
    · intro p obj p1 h
      simp only [read_expr] at h
      split at h
      · simp_all
      · split at h
        · exact ihl _ _ _ h
        · split at h
          · exact ihe _ _ _ h
          · split at h
            · exact read_str_wf h
            · split at h
              · exact read_number_wf h
              · split at h
                · exact read_symbol_wf h
                · simp_all
    · intro p obj p1 h
      simp only [read_list] at h
      split at h
      · exact Option.noConfusion h
      · simp_all
      · rename_i list p2 heq
        simp only [Option.some.injEq, Except.ok.injEq, Prod.mk.injEq] at h
        rw [← h.1]
        refine ObjWF.list _ (ihll _ _ _ _ heq ?_)
        intro o ho
        exact absurd ho (List.not_mem_nil o)
    · intro acc p l p1 h hacc
      simp only [read_list_loop] at h
      split at h
      · simp_all
      · simp only [Option.some.injEq, Except.ok.injEq, Prod.mk.injEq] at h
        intro o ho
        exact hacc o (by rw [h.1]; exact ho)
      · split at h
        · simp_all
        · split at h
          · exact Option.noConfusion h
          · simp_all
          · rename_i obj p2 heq
            refine ihll _ _ _ _ h ?_
            intro o ho
            rcases List.mem_append.mp ho with h1 | h1
            · exact hacc o h1
            · rw [List.mem_singleton.mp h1]
              exact ihe _ _ _ heq

end Rusp

/-!
Claim theorems. Each theorem settles one claim of the specification
against the embedding above; none-propagation helpers come first.
-/

namespace Rusp

theorem read_list_loop_none {fuel : Nat} {list : List Object} {p : Cursor}
    (h : expect_char p ')' = .ok false) (hn : has_next_char p = true)
    (he : read_expr fuel p = none) :
    read_list_loop (fuel + 1) list p = none := by
  rw [read_list_loop_step h hn, he]

theorem read_list_none {fuel : Nat} {p : Cursor}
    (h : read_list_loop fuel [] (skip_char p) = none) :
    read_list (fuel + 1) p = none := by
  rw [read_list_eq, h]

theorem parse_loop_none {fuel : Nat} {acc : List Object} {p : Cursor}
    (hn : has_next_char p = true) (he : read_expr fuel p = none) :
    parse_loop (fuel + 1) acc p = none := by
  rw [parse_loop_step hn, he]

/-- C1: the claim states that the cursor strictly increases on every
successful reader call and that readNumber advances the cursor after each
accepted digit and so terminates on any finite input starting with a digit.
The code contradicts this: `read_number`, entered with the cursor on a
numeric character while input remains, never advances the cursor and never
exits its accumulation loop, so the fueled embedding returns `none` (no
result) for every fuel value. -/
theorem read_number_never_terminates (fuel : Nat) (p : Cursor) (chr : Char)
    (hc : current_char p = .ok chr) (hh : has_next_char p = true)
    (hn : rust_is_numeric chr = true) :
    read_number fuel p = none :=
  read_number_stuck fuel p chr hc hh hn

/-- Witness for C1 at the concrete input 1: the number reader diverges. -/
theorem read_number_never_terminates_witness :
    read_number 5 { curr_pos := 0, text := "1".toList } = none :=
  read_number_never_terminates 5 { curr_pos := 0, text := "1".toList } '1' rfl rfl rfl

/-- C2: the claim states that parseAll of the text (1 2 3) yields the single
value List([Number(1), Number(2), Number(3)]). The code instead diverges:
the parse of that text reaches `read_number` on the digit 1, whose loop
never advances, so the embedding returns `none` for every fuel value. -/
theorem parse_one_two_three_diverges (fuel : Nat) :
    parse fuel ("(1 2 3)".toList) = none := by
  have hnum : ∀ f, read_number f { curr_pos := 1, text := ("(1 2 3)".toList) } = none :=
    fun f => read_number_stuck f _ '1' rfl rfl rfl
  have he1 : ∀ f, read_expr f { curr_pos := 1, text := ("(1 2 3)".toList) } = none := by
    intro f
    cases f with
    | zero => rfl
    | succ g =>
      rw [read_expr_digit (p := { curr_pos := 1, text := ("(1 2 3)".toList) })
        (c := '1') rfl rfl]
      exact hnum g
  have hll : ∀ f, read_list_loop f [] { curr_pos := 1, text := ("(1 2 3)".toList) } = none := by
    intro f
    cases f with
    | zero => rfl
    | succ g => exact read_list_loop_none rfl rfl (he1 g)
  have hl : ∀ f, read_list f { curr_pos := 0, text := ("(1 2 3)".toList) } = none := by
    intro f
    cases f with
    | zero => rfl
    | succ g => exact read_list_none (hll g)
  have he0 : ∀ f, read_expr f { curr_pos := 0, text := ("(1 2 3)".toList) } = none := by
    intro f
    cases f with
    | zero => rfl
    | succ g =>
      rw [read_expr_lparen (p := { curr_pos := 0, text := ("(1 2 3)".toList) }) rfl]
      exact hl g
  cases fuel with
  | zero => rfl
  | succ g =>
    rw [parse_eq (by decide)]
    exact parse_loop_none rfl (he0 g)

/-- C3 counterexample: on the input ab, the symbol run reaches the end of
the input and `read_symbol` fails with UnexpectedEndOfInput instead of
returning Symbol(ab): end of input is not a normal stop in this code. -/
theorem read_symbol_at_end_fails :
    read_symbol 10 { curr_pos := 0, text := "ab".toList } =
      some (.error ParseError.UnexpectedEndOfInput) := rfl

/-- C3 (amended): for every input where the dispatcher has confirmed the
current character satisfies the symbol-character predicate and the symbol
extends to the end of the input, readSymbol does not terminate normally: it
fails with UnexpectedEndOfInput, raised by nextChar when it advances past
the final character. -/
theorem read_symbol_run_to_end_errors (text : List Char) (pos fuel : Nat)
    (hlt : pos < text.length)
    (hall : ∀ c ∈ text.drop pos, is_symbol c = true)
    (hf : text.length - pos < fuel) :
    read_symbol fuel { curr_pos := pos, text := text } =
      some (.error ParseError.UnexpectedEndOfInput) :=
  read_symbol_run_to_end text pos fuel hlt hall hf

/-- Witness for the amended C3 at the concrete input abc. -/
theorem read_symbol_run_to_end_errors_witness :
    read_symbol 10 { curr_pos := 0, text := "abc".toList } =
      some (.error ParseError.UnexpectedEndOfInput) :=
  read_symbol_run_to_end_errors ("abc".toList) 0 10 (by decide) (by decide) (by decide)

/-- C4 counterexample: parseAll of the text with two leading and two
trailing spaces around (a b) does not succeed: after the list is read the
driver sees input remaining, the dispatcher skips the trailing spaces,
reaches end of input and fails with UnexpectedEndOfInput. -/
theorem parse_trailing_whitespace_fails :
    parse 60 ("  (a b)  ".toList) = some (.error ParseError.UnexpectedEndOfInput) := rfl

/-- C4 (amended): leading whitespace and whitespace between elements are
transparent: parseAll of the text (a b) preceded by two spaces succeeds and
is structurally identical to parseAll of (a b); but trailing whitespace
after the last expression is not consumed silently: the dispatcher skips it,
reaches end of input and fails with UnexpectedEndOfInput (see the
counterexample). -/
theorem parse_leading_whitespace_transparent :
    parse 60 ("  (a b)".toList) = parse 60 ("(a b)".toList) ∧
    parse 60 ("(a b)".toList) =
      some (.ok [create_list_obj [create_sym_obj ("a".toList),
        create_sym_obj ("b".toList)]]) :=
  ⟨rfl, rfl⟩

/-- C5: the claim states that the position is measured in codepoints with
atEnd true exactly at the codepoint length, so that current() succeeds
whenever atEnd is false, including on multi-byte codepoints. The code
violates this: on the three-codepoint, four-byte input consisting of a
quoted two-byte letter, at position 3 (the codepoint length) the atEnd
check `has_next_char` still reports more input (3 < 4 bytes) while
current() fails, and the whole parse of this well-formed string input
fails with UnexpectedEndOfInput. -/
theorem cursor_byte_vs_codepoint_mismatch :
    ("\"é\"".toList).length = 3 ∧
    byteLen ("\"é\"".toList) = 4 ∧
    has_next_char { curr_pos := 3, text := "\"é\"".toList } = true ∧
    current_char { curr_pos := 3, text := "\"é\"".toList } =
      .error ParseError.UnexpectedEndOfInput ∧
    parse 30 ("\"é\"".toList) = some (.error ParseError.UnexpectedEndOfInput) :=
  ⟨rfl, rfl, rfl, rfl, rfl⟩

/-- C6: for every input that opens a string but reaches end of input before
a closing quote, the parse fails with UnexpectedEndOfInput; and on a
properly closed string the string reader returns Str of exactly the
characters between the quotes, leaving the cursor just past the closing
quote. -/
theorem string_unclosed_eof_closed_ok :
    (∀ (rest : List Char) (fuel : Nat), ('"' : Char) ∉ rest → rest.length + 4 ≤ fuel →
      parse fuel ('"' :: rest) = some (.error ParseError.UnexpectedEndOfInput)) ∧
    (∀ (text mid post : List Char) (pos fuel : Nat),
      text.drop pos = '"' :: (mid ++ '"' :: post) → ('"' : Char) ∉ mid →
      mid.length + 2 ≤ fuel →
      read_str fuel { curr_pos := pos, text := text } =
        some (.ok (create_str_obj mid,
          { curr_pos := pos + mid.length + 2, text := text }))) :=
  ⟨fun _ _ hq hf => parse_unclosed_string hq hf,
   fun _ _ _ _ _ hd hq hf => read_str_closed hd hq hf⟩

/-- Witness for C6: the unclosed input from the spec example fails with
UnexpectedEndOfInput, and a closed two-character string is read back
exactly. -/
theorem string_unclosed_eof_closed_ok_witness :
    parse 10 ("\"abc".toList) = some (.error ParseError.UnexpectedEndOfInput) ∧
    read_str 10 { curr_pos := 0, text := "\"hi\"x".toList } =
      some (.ok (create_str_obj ("hi".toList),
        { curr_pos := 4, text := "\"hi\"x".toList })) :=
  ⟨string_unclosed_eof_closed_ok.1 ("abc".toList) 10 (by decide) (by decide),
   string_unclosed_eof_closed_ok.2 ("\"hi\"x".toList) ("hi".toList) ("x".toList) 0 10
     rfl (by decide) (by decide)⟩

/-- C7: every character that is not an opening parenthesis, not a double
quote, not one of space, carriage return or newline, not numeric and not a
symbol character makes the dispatcher fail with InvalidCharacter carrying
that character; in particular the parse of the hash character fails with
InvalidCharacter of hash, and a tab character is rejected the same way
rather than skipped as whitespace. The universal part is quantified over
the ASCII characters (codepoint below 128): that is exactly the range on
which the embedded classifiers `rust_is_numeric` and
`rust_is_alphanumeric` coincide with the Unicode classes the source
consults, so every instance of the theorem is a statement about the
source; the source routes a non-ASCII Unicode letter to the symbol reader
instead, which the ASCII-exact classifiers do not model. -/
theorem dispatcher_invalid_character :
    (∀ (fuel : Nat) (p : Cursor) (c : Char), c.toNat < 128 →
      current_char p = .ok c →
      c ≠ '(' → c ≠ ' ' → c ≠ '\r' → c ≠ '\n' → c ≠ '"' →
      rust_is_numeric c = false → is_symbol c = false →
      read_expr (fuel + 1) p = some (.error (ParseError.InvalidCharacter c))) ∧
    parse 5 ("#".toList) = some (.error (ParseError.InvalidCharacter '#')) ∧
    parse 5 ("\t".toList) = some (.error (ParseError.InvalidCharacter '\t')) :=
  ⟨fun _ _ _ _ hc h1 h2 h3 h4 h5 hd hs => read_expr_invalid hc h1 h2 h3 h4 h5 hd hs,
   rfl, rfl⟩

/-- Witness for C7 at the concrete character hash. -/
theorem dispatcher_invalid_character_witness :
    read_expr 4 { curr_pos := 0, text := "#".toList } =
      some (.error (ParseError.InvalidCharacter '#')) :=
  dispatcher_invalid_character.1 3 { curr_pos := 0, text := "#".toList } '#'
    (by decide) rfl (by decide) (by decide) (by decide) (by decide) (by decide) rfl rfl

/-- C8: parseAll of the two-character text () succeeds and yields exactly
one top-level value, the empty list. -/
theorem parse_empty_list :
    parse 10 ("()".toList) = some (.ok [create_list_obj []]) := rfl

/-- C9: parseAll on the empty text fails with EmptyInput, and the empty
text is the only input on which EmptyInput is raised: no reader and no
driver step ever produces that error kind on a non-empty text. -/
theorem parse_empty_input_iff :
    (∀ fuel : Nat, parse fuel [] = some (.error ParseError.EmptyInput)) ∧
    (∀ (fuel : Nat) (text : List Char),
      parse fuel text = some (.error ParseError.EmptyInput) → text = []) := by
  constructor
  · intro fuel
    rfl
  · intro fuel text h
    cases text with
    | nil => rfl
    | cons c t =>
      exfalso
      rw [parse_eq (byteLen_ne_zero c t)] at h
      exact parse_loop_ne_empty fuel [] _ h

/-- Witness for C9: the empty input fails with EmptyInput, and applying the
only-on-empty direction to that very run returns the empty text. -/
theorem parse_empty_input_iff_witness :
    parse 1 ([] : List Char) = some (.error ParseError.EmptyInput) ∧
      ([] : List Char) = [] :=
  ⟨parse_empty_input_iff.1 1, parse_empty_input_iff.2 1 [] (parse_empty_input_iff.1 1)⟩

/-- C10: every object returned by a successful readExpression call carries
a payload consistent with its tag (SYMBOL and STRING a StringValue, NUMBER
an IntegerValue, LIST a ListValue with well-formed elements, never an
absent payload), and no parse ever produces an object tagged BOOLEAN. -/
theorem read_expr_objects_wf (fuel : Nat) (p p1 : Cursor) (obj : Object)
    (h : read_expr fuel p = some (.ok (obj, p1))) :
    ObjWF obj ∧ Object.tag obj ≠ ObjectType.BOOLEAN := by
  have hwf := (expr_list_wf fuel).1 p obj p1 h
  exact ⟨hwf, hwf.tag_ne_boolean⟩

/-- Witness for C10 at the concrete input (): the returned empty list
object is well formed and not BOOLEAN. -/
theorem read_expr_objects_wf_witness :
    ObjWF (create_list_obj []) ∧
      Object.tag (create_list_obj []) ≠ ObjectType.BOOLEAN :=
  read_expr_objects_wf 10 { curr_pos := 0, text := "()".toList }
    { curr_pos := 2, text := "()".toList } (create_list_obj []) rfl

end Rusp
